import Mathlib

/-!
Shallow embedding of the DANE TLS authentication library (Go package
`dane`): TLSA record model, certificate/TLSA matching engine, the TLS
verifier callback, DNS query plumbing and the address value types,
together with theorems settling the specification claims.
-/

namespace Dane

/-- One lowercase hexadecimal digit (0-9, a-f) for a nibble value. -/
def hexDigit (n : Nat) : Char :=
  if n < 10 then Char.ofNat (48 + n) else Char.ofNat (87 + n)

/-- The character stream of Go `hex.EncodeToString`: each byte becomes
two lowercase hex digits, high nibble first. Bytes are `Nat`s below
256. -/
def hexChars (bs : List Nat) : List Char :=
  bs.foldr (fun b acc => hexDigit (b / 16 % 16) :: hexDigit (b % 16) :: acc) []

/-- Model of Go `hex.EncodeToString`. -/
def hexEncodeToString (bs : List Nat) : String :=
  String.mk (hexChars bs)

/-- Modelled from the spec: SHA-256 (`crypto/sha256.Sum256`) is an
external collaborator of the library ("treated as external
collaborators" in the spec's scope). The digest is kept abstract: no
claim below depends on digest values, only on the digest being a
function of the preimage. -/
def sha256Sum (msg : List Nat) : List Nat :=
  List.replicate 32 ((msg.foldl (fun a b => a + b) 0 + msg.length) % 256)

/-- Modelled from the spec: SHA-512 (`crypto/sha512.Sum512`), external
collaborator, kept abstract exactly like `sha256Sum`. -/
def sha512Sum (msg : List Nat) : List Nat :=
  List.replicate 64 ((msg.foldl (fun a b => a * 2 + b) 1 + msg.length) % 256)

/-- An X.509 certificate as the library sees it: the full DER encoding
(`cert.Raw`), the SubjectPublicKeyInfo DER
(`cert.RawSubjectPublicKeyInfo`), and the outcome of the external
`VerifyHostname` check for each candidate name (`true` = nil error). -/
structure Certificate where
  Raw : List Nat
  RawSubjectPublicKeyInfo : List Nat
  HostnameOK : String → Bool

/-- A non-empty certificate chain: `head` is `chain[0]` (the end-entity
certificate), `tail` is `chain[1:]`. Go's x509 verifier only ever
produces non-empty chains, and every chain access in the source
presupposes a first element. -/
structure Chain where
  head : Certificate
  tail : List Certificate

/-- `ComputeTLSA` (src/tlsa.go): selector 0 takes the certificate's
full DER, selector 1 the SubjectPublicKeyInfo DER, anything else is an
error; matching type 0 keeps the preimage, 1 hashes with SHA-256, 2
with SHA-512, anything else is an error; success yields the lowercase
hex encoding of the output. -/
def ComputeTLSA (selector mtype : Nat) (cert : Certificate) : Except String String :=
  match selector with
  | 0 => computeWithPreimage cert.Raw
  | 1 => computeWithPreimage cert.RawSubjectPublicKeyInfo
  | _ => Except.error ("unknown TLSA selector: " ++ toString selector)
where
  computeWithPreimage (preimage : List Nat) : Except String String :=
    match mtype with
    | 0 => Except.ok (hexEncodeToString preimage)
    | 1 => Except.ok (hexEncodeToString (sha256Sum preimage))
    | 2 => Except.ok (hexEncodeToString (sha512Sum preimage))
    | _ => Except.error ("unknown TLSA matching type: " ++ toString mtype)

/-- Split a character list on dots (helper for the `net.ParseIP`
model). -/
def splitOnDot : List Char → List (List Char)
  | [] => [[]]
  | c :: rest =>
    let r := splitOnDot rest
    if c = '.' then [] :: r
    else
      match r with
      | [] => [[c]]
      | p :: ps => (c :: p) :: ps

/-- Modelled from the spec: `net.ParseIP` from the Go standard library
(an external collaborator). Modelled for dotted-quad IPv4 literals and
returning `none` (Go: nil) otherwise; no claim depends on which
strings parse, only on the parse being able to fail. -/
def netParseIP (s : String) : Option (List Nat) :=
  let parts := splitOnDot s.data
  if parts.length = 4 ∧
     parts.all (fun p => p ≠ [] ∧ p.length ≤ 3 ∧ p.all Char.isDigit) then
    let vals := parts.map (fun p => p.foldl (fun a c => a * 10 + (c.toNat - 48)) 0)
    if vals.all (fun v => v ≤ 255) then some vals else none
  else
    none

/-- The `interface{}` argument of `NewServer`: a `net.IP` value, a
string to be parsed, or a value of any other type (which the source's
type switch silently ignores). -/
inductive IPArg where
  | ipa (a : List Nat)
  | str (s : String)
  | other
deriving Repr, DecidableEq

/-- `Server` (src/server.go): hostname, IP address and port. `Ipaddr`
is an `Option` because Go's `net.IP` may be nil (unparsed or never
assigned); `Port` is an `Int` because Go's `int` is unconstrained. -/
structure Server where
  Name : String := ""
  Ipaddr : Option (List Nat) := none
  Port : Int := 0
deriving Repr, DecidableEq

/-- `NewServer` (src/server.go): stores the name, resolves the
`interface{}` type switch for the IP (leaving nil for any other type),
and stores the port as given. -/
def NewServer (name : String) (ip : IPArg) (port : Int) : Server :=
  { Name := name,
    Ipaddr :=
      match ip with
      | IPArg.ipa a => some a
      | IPArg.str s => netParseIP s
      | IPArg.other => none,
    Port := port }

/-- `TLSArdata` (src/tlsa.go): one TLSA record's rdata plus its live
match state. -/
structure TLSArdata where
  Usage : Nat
  Selector : Nat
  Mtype : Nat
  Data : String
  Checked : Bool := false
  Ok : Bool := false
  Message : String := ""
deriving Repr, DecidableEq

/-- `TLSAinfo` (src/tlsa.go), value view: qname, CNAME aliases, and the
rdata sequence. -/
structure TLSAinfo where
  Qname : String
  Alias : List String
  Rdata : List TLSArdata
deriving Repr, DecidableEq

/-- The `Config` fields read or written by the claims (src/config.go,
plus the `DANEChains`/`PKIXChains` chain lists consumed by
`AuthenticateAll` in src/tlsa.go). -/
structure Config where
  DiagMode : Bool := false
  DiagError : Option String := none
  Server : Server := {}
  DaneEEname : Bool := false
  SMTPAnyMode : Bool := false
  Appname : String := ""
  DANE : Bool := true
  PKIX : Bool := true
  Okdane : Bool := false
  Okpkix : Bool := false
  TLSA : Option TLSAinfo := none
  PeerChain : List Certificate := []
  VerifiedChains : List Chain := []
  DANEChains : List Chain := []
  PKIXChains : List Chain := []

/-- The inner loop of `ChainMatchesTLSA` for trust-anchor usages
(src/tlsa.go lines 186-205): walk `chain[1:]` at depths `d, d+1, ...`;
a hash-computation error stops the loop; a hash match records the depth
diagnostic (and authenticates when usage is DaneTA or PKIX already
succeeded) and the loop continues, so a later match overwrites the
diagnostic. Returns the record state, the `Authenticated` flag and the
`hashMatched` flag. -/
def taLoop (okpkix : Bool) : List Certificate → Nat → TLSArdata → Bool → Bool →
    TLSArdata × Bool × Bool
  | [], _, tr, auth, hm => (tr, auth, hm)
  | cert :: rest, d, tr, auth, hm =>
    match ComputeTLSA tr.Selector tr.Mtype cert with
    | Except.error e => ({ tr with Ok := false, Message := e }, auth, hm)
    | Except.ok hash =>
      if hash ≠ tr.Data then
        taLoop okpkix rest (d + 1) tr auth hm
      else if tr.Usage = 2 ∨ okpkix then
        taLoop okpkix rest (d + 1)
          { tr with Ok := true, Message := "matched TA certificate at depth " ++ toString d }
          true true
      else
        taLoop okpkix rest (d + 1)
          { tr with Ok := false,
                    Message := "matched TA certificate at depth " ++ toString d
                               ++ " but PKIX failed" }
          auth true

/-- `ChainMatchesTLSA` (src/tlsa.go): marks the record checked, then
matches it against the chain according to its usage mode. Returns the
updated record and the `Authenticated` result. -/
def ChainMatchesTLSA (chain : Chain) (tr : TLSArdata) (daneconfig : Config) :
    TLSArdata × Bool :=
  let tr := { tr with Checked := true }
  if tr.Usage = 1 ∨ tr.Usage = 3 then
    match ComputeTLSA tr.Selector tr.Mtype chain.head with
    | Except.error e => ({ tr with Ok := false, Message := e }, false)
    | Except.ok hash =>
      if hash = tr.Data then
        if tr.Usage = 3 ∨ daneconfig.Okpkix then
          ({ tr with Ok := true, Message := "matched EE certificate" }, true)
        else
          ({ tr with Ok := false, Message := "matched EE certificate but PKIX failed" }, false)
      else
        ({ tr with Ok := false, Message := "did not match EE certificate" }, false)
  else if tr.Usage = 0 ∨ tr.Usage = 2 then
    let res := taLoop daneconfig.Okpkix chain.tail 1 tr false false
    if res.2.2 then (res.1, res.2.1)
    else ({ res.1 with Ok := false, Message := "did not match any TA certificate" }, res.2.1)
  else
    ({ tr with Ok := false, Message := "invalid usage mode: " ++ toString tr.Usage }, false)

/-- `smtpUsageOK` (src/tlsa.go): under SMTP only usages 2 and 3 are
allowed, unless `SMTPAnyMode` allows everything. -/
def smtpUsageOK (tr : TLSArdata) (daneconfig : Config) : Bool :=
  if daneconfig.SMTPAnyMode then true
  else if tr.Usage = 2 ∨ tr.Usage = 3 then true
  else false

/-- `AuthenticateSingle` (src/tlsa.go): SMTP usage filter, then chain
matching, then the hostname check (skipped for DANE-EE unless
`DaneEEname` demands it). Returns the updated record and the
authentication result. -/
def AuthenticateSingle (chain : Chain) (tr : TLSArdata) (daneconfig : Config) :
    TLSArdata × Bool :=
  let tr := { tr with Checked := true }
  if daneconfig.Appname = "smtp" ∧ ¬ smtpUsageOK tr daneconfig then
    ({ tr with Ok := false, Message := "invalid usage mode for smtp" }, false)
  else
    let res := ChainMatchesTLSA chain tr daneconfig
    if ¬ res.2 then (res.1, false)
    else if res.1.Usage = 3 ∧ ¬ daneconfig.DaneEEname then (res.1, true)
    else if chain.head.HostnameOK daneconfig.Server.Name then (res.1, true)
    else ({ res.1 with Ok := false, Message := res.1.Message ++ " but name check failed" },
          false)

/-- One record's pass through the chain loop of `AuthenticateAll`: the
record is threaded through `AuthenticateSingle` for every chain, and
`Okdane` is raised whenever a call returns true. -/
def authChains (daneconfig : Config) (chains : List Chain) (tr : TLSArdata)
    (okdane : Bool) : TLSArdata × Bool :=
  chains.foldl
    (fun acc chain =>
      let res := AuthenticateSingle chain acc.1 daneconfig
      (res.1, acc.2 || res.2))
    (tr, okdane)

/-- The record loop of `AuthenticateAll`: the `chains` variable is
selected by usage (DANE usages take the DANE chains, PKIX usages the
PKIX chains) and, faithfully to the Go `switch` with no default case,
carries over unchanged for any other usage value. -/
def authRecords (daneconfig : Config) : List TLSArdata → List Chain → Bool →
    List TLSArdata × Bool
  | [], _, okdane => ([], okdane)
  | tr :: rest, chains, okdane =>
    let chains' :=
      if tr.Usage = 3 ∨ tr.Usage = 2 then daneconfig.DANEChains
      else if tr.Usage = 1 ∨ tr.Usage = 0 then daneconfig.PKIXChains
      else chains
    let res := authChains daneconfig chains' tr okdane
    let rec' := authRecords daneconfig rest chains' res.2
    (res.1 :: rec'.1, rec'.2)

/-- `AuthenticateAll` (src/tlsa.go): clears `Okdane`, then probes every
TLSA record against every chain of the usage-appropriate chain list,
raising `Okdane` if any pair authenticates. `none` models the Go nil
dereference when no TLSA information is attached. -/
def AuthenticateAll (daneconfig : Config) : Option Config :=
  match daneconfig.TLSA with
  | none => none
  | some tlsa =>
    let daneconfig' := { daneconfig with Okdane := false }
    let res := authRecords daneconfig' tlsa.Rdata [] false
    some { daneconfig' with TLSA := some { tlsa with Rdata := res.1 }, Okdane := res.2 }

/-- `NewConfig` (src/config.go): a fresh zero-valued Config with DANE
and PKIX enabled and the Server built by `NewServer`. -/
def NewConfig (hostname : String) (ip : IPArg) (port : Int) : Config :=
  { DANE := true, PKIX := true, Server := NewServer hostname ip port }

/-- The per-certificate parse loop at the top of `verifyServer`
(src/byname.go): the first parse failure aborts with a wrapped
error message. Each list entry is the external
`x509.ParseCertificate` outcome for one raw certificate. -/
def parseCerts : List (Except String Certificate) → Except String (List Certificate)
  | [] => Except.ok []
  | Except.error e :: _ => Except.error ("failed to parse server certificate: " ++ e)
  | Except.ok c :: rest =>
    match parseCerts rest with
    | Except.error e => Except.error e
    | Except.ok cs => Except.ok (c :: cs)

/-- `verifyServer` (src/byname.go): the TLS peer-verification
callback. `pkixVerify` and `daneVerify` stand for `verifyChain` in
root mode and in self-anchored mode (their chain building is done by
the external x509 verifier); `rawParsed` carries the per-certificate
parse outcomes; `serverName` is `tlsconfig.ServerName`. The result is
`some (finalConfig, callbackError)`, where a `none` callback error is
the nil (success) return; the outer `none` models the Go panic on an
empty certificate list (`certs[0]` inside `verifyChain`). The
hostname-mismatch error string of the external `VerifyHostname` is
abstracted to a fixed message. -/
def verifyServer (pkixVerify daneVerify : List Certificate → Except String (List Chain))
    (rawParsed : List (Except String Certificate)) (serverName : String)
    (daneconfig : Config) : Option (Config × Option String) :=
  match parseCerts rawParsed with
  | Except.error e => some (daneconfig, some e)
  | Except.ok [] => none
  | Except.ok (c0 :: crest) =>
    let certs := c0 :: crest
    let cfg0 := { daneconfig with PeerChain := certs }
    let pk := pkixVerify certs
    let cfg :=
      match pk with
      | Except.ok chains => { cfg0 with VerifiedChains := chains, Okpkix := true }
      | Except.error _ => { cfg0 with VerifiedChains := [] }
    let errPkix : Option String :=
      match pk with
      | Except.ok _ => none
      | Except.error e => some e
    if ¬ (cfg.DANE ∧ cfg.TLSA.isSome) then
      if ¬ cfg.Okpkix then
        if cfg.DiagMode then some ({ cfg with DiagError := errPkix }, none)
        else some (cfg, errPkix)
      else
        let herr : Option String :=
          if c0.HostnameOK serverName then none else some "hostname verification failed"
        if cfg.DiagMode then some ({ cfg with DiagError := herr }, none)
        else some (cfg, herr)
    else
      let step : Except (Config × Option String) Config :=
        if ¬ cfg.Okpkix then
          match daneVerify certs with
          | Except.error e =>
            let d : Option String := some ("DANE TLS error: cert chain: " ++ e)
            let cfgE := { cfg with VerifiedChains := ([] : List Chain), DiagError := d }
            Except.error (if cfgE.DiagMode then (cfgE, none) else (cfgE, cfgE.DiagError))
          | Except.ok chains => Except.ok { cfg with VerifiedChains := chains }
        else Except.ok cfg
      match step with
      | Except.error r => some r
      | Except.ok cfg1 =>
        match AuthenticateAll cfg1 with
        | none => none
        | some cfg2 =>
          if ¬ cfg2.Okdane then
            let cfg3 := { cfg2 with DiagError := some "DANE TLS authentication failed" }
            if cfg3.DiagMode then some (cfg3, none) else some (cfg3, cfg3.DiagError)
          else some (cfg2, none)

/-- A transport-layer error from `dns.Client.Exchange`: whether it is a
`net.Error`, and whether that `net.Error` reports a timeout. -/
structure GoNetError where
  isNetError : Bool
  timeout : Bool
  msg : String
deriving Repr, DecidableEq

/-- An answer-section resource record, as far as `GetTLSA` inspects it:
either a TLSA record (owner name plus the four rdata fields) or a
record of any other type (skipped by the type assertion). -/
inductive RR where
  | tlsa (owner : String) (usage selector mtype : Nat) (data : String)
  | other
deriving Repr, DecidableEq

/-- The parts of a `dns.Msg` response that the library reads. -/
structure DNSmsg where
  Truncated : Bool := false
  Rcode : Nat := 0
  AuthenticatedData : Bool := false
  Answer : List RR := []
deriving Repr, DecidableEq

/-- The retry loop of `sendQueryUDP` (src/dns.go): `outcomes k` is the
external `Exchange` result of attempt `k`. Iterates while the retry
counter is positive; a success or a non-timeout `net.Error` breaks the
loop; any other error consumes a retry. Carries the `(response, err)`
pair visible after the loop. -/
def sendQueryUDPLoop (outcomes : Nat → Except GoNetError DNSmsg) :
    Nat → Nat → Option DNSmsg × Option GoNetError → Option DNSmsg × Option GoNetError
  | 0, _, acc => acc
  | retries + 1, k, _ =>
    match outcomes k with
    | Except.ok m => (some m, none)
    | Except.error e =>
      if e.isNetError ∧ ¬ e.timeout then (none, some e)
      else sendQueryUDPLoop outcomes retries (k + 1) (none, some e)

/-- `sendQueryUDP` (src/dns.go): runs the retry loop starting from the
zero-valued `(response, err)` pair with `resolver.Retries` as the
counter. -/
def sendQueryUDP (retries : Nat) (outcomes : Nat → Except GoNetError DNSmsg) :
    Option DNSmsg × Option GoNetError :=
  sendQueryUDPLoop outcomes retries 0 (none, none)

/-- `sendQuery` (src/dns.go): UDP result, TCP fallback on truncation,
then the error and null-response checks. `tcpResult` is the external
TCP `Exchange` outcome. The outer `none` models the Go nil-pointer
dereference of `response.MsgHdr.Truncated` when the UDP phase yields a
nil response together with a nil error. -/
def sendQuery (udpResult : Option DNSmsg × Option GoNetError)
    (tcpResult : Option DNSmsg × Option GoNetError) : Option (Except String DNSmsg) :=
  match udpResult.2 with
  | some e => some (Except.error e.msg)
  | none =>
    match udpResult.1 with
    | none => none
    | some m =>
      if m.Truncated then
        match tcpResult.2 with
        | some e => some (Except.error e.msg)
        | none =>
          match tcpResult.1 with
          | none => some (Except.error "Error: null DNS response to query")
          | some m2 => some (Except.ok m2)
      else some (Except.ok m)

/-- `responseOK` (src/dns.go): NOERROR (0) and NXDOMAIN (3) are
authoritative results; everything else is rejected. -/
def responseOK (response : DNSmsg) : Bool :=
  response.Rcode = 0 ∨ response.Rcode = 3

/-- Go `dns.Fqdn`: appends a trailing dot when missing. -/
def dnsFqdn (s : String) : String :=
  if s.endsWith "." then s else s ++ "."

/-- The TLSAinfo construction at the end of `GetTLSA` (src/dns.go):
every TLSA answer whose owner differs from the qname contributes an
alias, and every TLSA answer contributes an rdata entry, in answer
order. -/
def buildTLSAinfo (qname : String) (answers : List RR) : TLSAinfo :=
  answers.foldl
    (fun t rr =>
      match rr with
      | RR.tlsa owner u sel mt d =>
        { t with
          Alias := if owner ≠ t.Qname then t.Alias ++ [owner] else t.Alias,
          Rdata := t.Rdata ++ [{ Usage := u, Selector := sel, Mtype := mt, Data := d }] }
      | RR.other => t)
    { Qname := dnsFqdn qname, Alias := [], Rdata := [] }

/-- The response-processing tail of `GetTLSA` (src/dns.go), in source
order: rcode filter, AD-bit policy, NXDOMAIN check, empty-answer
policy, TLSAinfo construction. `Except.ok none` is the Go `(nil, nil)`
no-TLSA-data sentinel. The rcode pretty-printer `dns.RcodeToString` is
abstracted to `toString`. -/
def processTLSAResponse (pkixFallback : Bool) (qname : String) (response : DNSmsg) :
    Except String (Option TLSAinfo) :=
  if ¬ responseOK response then
    Except.error ("TLSA response rcode: " ++ toString response.Rcode)
  else if ¬ response.AuthenticatedData then
    if pkixFallback then Except.ok none
    else Except.error "ERROR: TLSA response was unauthenticated"
  else if response.Rcode = 3 then
    Except.error (qname ++ ": Non-existent domain name")
  else if response.Answer.length = 0 then
    if pkixFallback then Except.ok none
    else Except.error "ERROR: No TLSA records found"
  else
    Except.ok (some (buildTLSAinfo qname response.Answer))

/-- `GetTLSA` (src/dns.go): builds the `_<port>._tcp.<host>` qname,
sends the query, and processes the response. The outer `none`
propagates the `sendQuery` nil dereference. -/
def GetTLSA (pkixFallback : Bool) (hostname : String) (port : Nat)
    (udpResult tcpResult : Option DNSmsg × Option GoNetError) :
    Option (Except String (Option TLSAinfo)) :=
  let qname := "_" ++ toString port ++ "._tcp." ++ hostname
  match sendQuery udpResult tcpResult with
  | none => none
  | some (Except.error e) => some (Except.error e)
  | some (Except.ok response) => some (processTLSAResponse pkixFallback qname response)

instance : Inhabited TLSArdata :=
  ⟨{ Usage := 0, Selector := 0, Mtype := 0, Data := "" }⟩

/-- The heap of `TLSArdata` cells: Go's `*TLSArdata` pointers are
indices into this list. The pointer structure is what makes the
deep-copy claim meaningful. -/
abbrev Heap := List TLSArdata

/-- Dereference a `*TLSArdata` pointer. -/
def heapRead (h : Heap) (r : Nat) : TLSArdata :=
  h.getD r default

/-- A `TLSAinfo` whose `Rdata` entries are pointers into a heap,
mirroring Go's `[]*TLSArdata`. -/
structure TLSAinfoRef where
  Qname : String
  Alias : List String
  Rdata : List Nat
deriving Repr, DecidableEq

/-- The record loop of `TLSAinfo.Copy` (src/tlsa.go): for each source
pointer, allocate a fresh cell holding the four data fields (the match
state of a `new(TLSArdata)` is zero-valued) and collect the fresh
pointers. -/
def copyCells (h : Heap) : List Nat → Heap × List Nat
  | [] => (h, [])
  | r :: rest =>
    let src := heapRead h r
    let h' := h ++ [{ Usage := src.Usage, Selector := src.Selector,
                      Mtype := src.Mtype, Data := src.Data }]
    let res := copyCells h' rest
    (res.1, h.length :: res.2)

/-- `TLSAinfo.Copy` (src/tlsa.go): fresh cells for every record,
copied qname and alias list. -/
def Copy (h : Heap) (t : TLSAinfoRef) : Heap × TLSAinfoRef :=
  let res := copyCells h t.Rdata
  (res.1, { Qname := t.Qname, Alias := t.Alias, Rdata := res.2 })

/-- `TLSAinfo.Uncheck` (src/tlsa.go): reset the match state of every
record, writing through the pointers. -/
def Uncheck (h : Heap) (t : TLSAinfoRef) : Heap :=
  t.Rdata.foldl
    (fun h r => h.set r { heapRead h r with Checked := false, Ok := false, Message := "" })
    h

/-- `Config.SetTLSA` (src/config.go): deep-copy the TLSAinfo, uncheck
the copy, and store the copy (returned here alongside the heap) in the
Config. -/
def SetTLSA (h : Heap) (t : TLSAinfoRef) : Heap × TLSAinfoRef :=
  let res := Copy h t
  (Uncheck res.1 res.2, res.2)

/-- A mutation of one record's match state through its pointer, as the
matching engine performs it. -/
def setMatchState (h : Heap) (r : Nat) (chk ok : Bool) (msg : String) : Heap :=
  h.set r { heapRead h r with Checked := chk, Ok := ok, Message := msg }

/-- The value a `TLSAinfoRef` denotes in a heap: the observable
`TLSAinfo`. -/
def readInfo (h : Heap) (t : TLSAinfoRef) : TLSAinfo :=
  { Qname := t.Qname, Alias := t.Alias, Rdata := t.Rdata.map (heapRead h) }

/-- Clearing the match state of a record value. -/
def clearMatch (tr : TLSArdata) : TLSArdata :=
  { tr with Checked := false, Ok := false, Message := "" }

/-- The chain list `AuthenticateAll` selects for a record of a defined
usage mode: DANE usages (2, 3) take the DANE-verified chains, PKIX
usages (0, 1) the PKIX-verified chains. -/
def chainsFor (cfg : Config) (tr : TLSArdata) : List Chain :=
  if tr.Usage = 3 ∨ tr.Usage = 2 then cfg.DANEChains else cfg.PKIXChains

/-- A lowercase hexadecimal character: a decimal digit or one of
`a`-`f`. -/
def isLowerHexChar (c : Char) : Prop :=
  (48 ≤ c.toNat ∧ c.toNat ≤ 57) ∨ (97 ≤ c.toNat ∧ c.toNat ≤ 102)

lemma hexDigit_isLowerHexChar (n : Nat) (h : n < 16) : isLowerHexChar (hexDigit n) := by
  interval_cases n <;> simp [hexDigit, isLowerHexChar]

lemma hexChars_lower (bs : List Nat) : ∀ c ∈ hexChars bs, isLowerHexChar c := by
  induction bs with
  | nil => intro c hc; simp [hexChars] at hc
  | cons b rest ih =>
    intro c hc
    have hx : hexChars (b :: rest)
        = hexDigit (b / 16 % 16) :: hexDigit (b % 16) :: hexChars rest := rfl
    rw [hx, List.mem_cons, List.mem_cons] at hc
    rcases hc with rfl | rfl | h
    · exact hexDigit_isLowerHexChar _ (Nat.mod_lt _ (by omega))
    · exact hexDigit_isLowerHexChar _ (Nat.mod_lt _ (by omega))
    · exact ih c h

lemma data_hexEncodeToString (bs : List Nat) : (hexEncodeToString bs).data = hexChars bs := rfl

/-- C5: `ComputeTLSA` is a pure function of selector, matching type
and the certificate's DER fields. Selector 0 takes the full DER,
selector 1 the SubjectPublicKeyInfo DER, any other selector is the
unknown-selector error; matching type 0 outputs the preimage, 1 its
SHA-256, 2 its SHA-512, any other the unknown-matching-type error; the
successful output is the lowercase hex encoding, giving the
matching-type-0 round trips, and equal inputs yield identical
output. -/
theorem c5_ComputeTLSA_dispatch (c c' : Certificate) (s m : Nat) :
    (ComputeTLSA 0 0 c = Except.ok (hexEncodeToString c.Raw)) ∧
    (ComputeTLSA 1 0 c = Except.ok (hexEncodeToString c.RawSubjectPublicKeyInfo)) ∧
    (ComputeTLSA 0 1 c = Except.ok (hexEncodeToString (sha256Sum c.Raw))) ∧
    (ComputeTLSA 1 1 c = Except.ok (hexEncodeToString (sha256Sum c.RawSubjectPublicKeyInfo))) ∧
    (ComputeTLSA 0 2 c = Except.ok (hexEncodeToString (sha512Sum c.Raw))) ∧
    (ComputeTLSA 1 2 c = Except.ok (hexEncodeToString (sha512Sum c.RawSubjectPublicKeyInfo))) ∧
    (¬ (s = 0 ∨ s = 1) →
      ComputeTLSA s m c = Except.error ("unknown TLSA selector: " ++ toString s)) ∧
    ((s = 0 ∨ s = 1) → ¬ (m = 0 ∨ m = 1 ∨ m = 2) →
      ComputeTLSA s m c = Except.error ("unknown TLSA matching type: " ++ toString m)) ∧
    (∀ out, ComputeTLSA s m c = Except.ok out → ∀ ch ∈ out.data, isLowerHexChar ch) ∧
    (c.Raw = c'.Raw → c.RawSubjectPublicKeyInfo = c'.RawSubjectPublicKeyInfo →
      ComputeTLSA s m c = ComputeTLSA s m c') := by
  refine ⟨rfl, rfl, rfl, rfl, rfl, rfl, ?_, ?_, ?_, ?_⟩
  · intro hs
    have : ∃ k, s = k + 2 := ⟨s - 2, by omega⟩
    obtain ⟨k, rfl⟩ := this
    rfl
  · intro hs hm
    have : ∃ k, m = k + 3 := ⟨m - 3, by omega⟩
    obtain ⟨k, rfl⟩ := this
    rcases hs with rfl | rfl <;> rfl
  · intro out hout ch hch
    rcases s with _ | _ | s' <;> rcases m with _ | _ | _ | m' <;>
      simp only [ComputeTLSA, ComputeTLSA.computeWithPreimage] at hout <;>
      first
        | (injection hout with hout
           subst hout
           rw [data_hexEncodeToString] at hch
           exact hexChars_lower _ ch hch)
        | simp at hout
  · intro h1 h2
    rcases s with _ | _ | s' <;> rcases m with _ | _ | _ | m' <;>
      simp [ComputeTLSA, ComputeTLSA.computeWithPreimage, h1, h2]

/-- Concrete certificate for witnesses. -/
def certW : Certificate :=
  { Raw := [0, 1, 171], RawSubjectPublicKeyInfo := [255], HostnameOK := fun _ => true }

/-- Witness for C5 at a concrete certificate: the selector-0/mtype-0
round trip evaluates to the concrete hex string, and selector 5 is
rejected. -/
theorem c5_witness :
    ComputeTLSA 5 0 certW = Except.error ("unknown TLSA selector: " ++ toString (5 : Nat)) ∧
    ComputeTLSA 0 0 certW = Except.ok (hexEncodeToString certW.Raw) ∧
    hexEncodeToString certW.Raw = "0001ab" := by
  have h := c5_ComputeTLSA_dispatch certW certW 5 0
  exact ⟨h.2.2.2.2.2.2.1 (by decide), h.1, by decide⟩

/-- C9 counterexample: `NewServer` (and the Server inside `NewConfig`)
happily constructs a Server whose IP string did not parse (Ipaddr is
nil) and whose port 70000 is outside 1..65535 — the claimed
construction-time validation does not exist. -/
theorem c9_counterexample :
    (NewServer "example.com" (IPArg.str "not-an-ip") 70000).Ipaddr = none ∧
    (NewServer "example.com" (IPArg.str "not-an-ip") 70000).Port = 70000 ∧
    ¬ ((1 : Int) ≤ (NewServer "example.com" (IPArg.str "not-an-ip") 70000).Port ∧
       (NewServer "example.com" (IPArg.str "not-an-ip") 70000).Port ≤ 65535) ∧
    (NewConfig "example.com" (IPArg.str "not-an-ip") 70000).Server.Port = 70000 := by
  refine ⟨by decide, rfl, by decide, rfl⟩

/-- C9 amended: construction performs no validation. `NewServer`
stores the name and port unchanged for every input, stores a supplied
`net.IP` as is, stores the (possibly nil) `net.ParseIP` result for a
string, and leaves the address nil for any other argument type;
`NewConfig` wraps exactly that Server with DANE and PKIX enabled. -/
theorem c9_NewServer_no_validation (name : String) (ip : IPArg) (port : Int) :
    (NewServer name ip port).Name = name ∧
    (NewServer name ip port).Port = port ∧
    (∀ a, ip = IPArg.ipa a → (NewServer name ip port).Ipaddr = some a) ∧
    (∀ s, ip = IPArg.str s → (NewServer name ip port).Ipaddr = netParseIP s) ∧
    (ip = IPArg.other → (NewServer name ip port).Ipaddr = none) ∧
    (NewConfig name ip port).Server = NewServer name ip port ∧
    (NewConfig name ip port).DANE = true ∧ (NewConfig name ip port).PKIX = true := by
  refine ⟨rfl, rfl, ?_, ?_, ?_, rfl, rfl, rfl⟩
  · rintro a rfl; rfl
  · rintro s rfl; rfl
  · rintro rfl; rfl

/-- Witness for C9 (amended) at a concrete server. -/
theorem c9_witness :
    (NewServer "h.example" (IPArg.ipa [192, 0, 2, 1]) 443).Port = 443 ∧
    (NewServer "h.example" (IPArg.ipa [192, 0, 2, 1]) 443).Ipaddr = some [192, 0, 2, 1] := by
  have h := c9_NewServer_no_validation "h.example" (IPArg.ipa [192, 0, 2, 1]) 443
  exact ⟨h.2.1, h.2.2.1 [192, 0, 2, 1] rfl⟩

lemma sendQueryUDPLoop_err_shape (outcomes : Nat → Except GoNetError DNSmsg) :
    ∀ (r k : Nat) (e : GoNetError),
      (sendQueryUDPLoop outcomes r k (none, some e)).2.isSome = true ∨
      (sendQueryUDPLoop outcomes r k (none, some e)).1.isSome = true := by
  intro r
  induction r with
  | zero => intro k e; left; rfl
  | succ r ih =>
    intro k e
    simp only [sendQueryUDPLoop]
    rcases houtcome : outcomes k with e' | m
    · by_cases hb : e'.isNetError = true ∧ e'.timeout = false
      · simp [hb]
      · simpa [hb] using ih (k + 1) e'
    · right; rfl

lemma sendQuery_eq_none_iff (u t : Option DNSmsg × Option GoNetError) :
    sendQuery u t = none ↔ u.1 = none ∧ u.2 = none := by
  obtain ⟨r, e⟩ := u
  rcases e with _ | e
  · rcases r with _ | m
    · simp [sendQuery]
    · by_cases hm : m.Truncated <;>
        rcases t with ⟨tr, te⟩ <;> rcases te with _ | te <;> rcases tr with _ | tm <;>
        simp [sendQuery, hm]
  · simp [sendQuery]

/-- C10: with `resolver.Retries = 0` the retry loop of `sendQueryUDP`
never executes and returns a nil response with a nil error, after
which `sendQuery` dereferences the nil response's truncation flag (the
`none` result models that Go panic) instead of reaching its
null-response error branch; with `Retries ≥ 1` the dereference is
safe. -/
theorem c10_sendQuery_nil_deref (outcomes : Nat → Except GoNetError DNSmsg)
    (tcp : Option DNSmsg × Option GoNetError) :
    sendQueryUDP 0 outcomes = (none, none) ∧
    sendQuery (sendQueryUDP 0 outcomes) tcp = none ∧
    (∀ r : Nat, 1 ≤ r → sendQuery (sendQueryUDP r outcomes) tcp ≠ none) := by
  refine ⟨rfl, rfl, ?_⟩
  intro r hr hnone
  rw [sendQuery_eq_none_iff] at hnone
  obtain ⟨r', rfl⟩ : ∃ r', r = r' + 1 := ⟨r - 1, by omega⟩
  revert hnone
  simp only [sendQueryUDP, sendQueryUDPLoop]
  rcases houtcome : outcomes 0 with e | m
  · by_cases hb : e.isNetError = true ∧ e.timeout = false
    · simp [hb]
    · have hb' : ¬ (e.isNetError = true ∧ ¬ e.timeout = true) := by
        simpa [Bool.not_eq_true] using hb
      intro hnone
      simp only [if_neg hb'] at hnone
      rcases sendQueryUDPLoop_err_shape outcomes r' (0 + 1) e with h | h <;>
        simp [hnone.1, hnone.2] at h
  · simp

/-- Witness for C10: with one retry and a timeout outcome the result
is a returned error (no nil dereference); with zero retries the nil
dereference fires. -/
theorem c10_witness :
    sendQuery
        (sendQueryUDP 1 (fun _ => Except.error ⟨true, true, "timeout"⟩)) (none, none) ≠ none ∧
    sendQuery
        (sendQueryUDP 0 (fun _ => Except.error ⟨true, true, "timeout"⟩)) (none, none) = none := by
  have h := c10_sendQuery_nil_deref (fun _ => Except.error ⟨true, true, "timeout"⟩) (none, none)
  exact ⟨h.2.2 1 (by decide), h.2.1⟩

/-- Concrete NXDOMAIN response without the AD bit, for the C8
counterexample. -/
def respC8 : DNSmsg :=
  { Truncated := false, Rcode := 3, AuthenticatedData := false, Answer := [] }

/-- C8 counterexample: an NXDOMAIN (rcode 3) response without the AD
bit, under `pkix_fallback = true`, makes `GetTLSA` return the
no-TLSA-data sentinel rather than the claimed NoSuchName error: the
AD-bit policy runs before the NXDOMAIN check. -/
theorem c8_counterexample :
    respC8.Rcode = 3 ∧ respC8.AuthenticatedData = false ∧
    GetTLSA true "example.com" 443 (some respC8, none) (none, none)
      = some (Except.ok none) := by
  exact ⟨rfl, rfl, rfl⟩

/-- C8 amended: `GetTLSA` enforces the rcode filter first, then the
AD-bit policy, and only then the NXDOMAIN check: an AD-unset response
(NXDOMAIN included) yields the sentinel under `pkix_fallback` and the
unauthenticated-TLSA error otherwise; the NoSuchName error is returned
for NXDOMAIN responses whose AD flag is set. -/
theorem c8_GetTLSA_ad_before_nxdomain (pf : Bool) (host : String) (port : Nat)
    (udp tcp : Option DNSmsg × Option GoNetError) (resp : DNSmsg)
    (hsend : sendQuery udp tcp = some (Except.ok resp)) :
    (responseOK resp = false →
      GetTLSA pf host port udp tcp
        = some (Except.error ("TLSA response rcode: " ++ toString resp.Rcode))) ∧
    (responseOK resp = true → resp.AuthenticatedData = false →
      GetTLSA pf host port udp tcp
        = some (if pf then Except.ok none
                else Except.error "ERROR: TLSA response was unauthenticated")) ∧
    (resp.AuthenticatedData = true → resp.Rcode = 3 →
      GetTLSA pf host port udp tcp
        = some (Except.error
            ("_" ++ toString port ++ "._tcp." ++ host ++ ": Non-existent domain name"))) := by
  refine ⟨?_, ?_, ?_⟩
  · intro hok
    simp [GetTLSA, hsend, processTLSAResponse, hok]
  · intro hok had
    rcases pf <;> simp [GetTLSA, hsend, processTLSAResponse, hok, had]
  · intro had hrc
    have hok : responseOK resp = true := by simp [responseOK, hrc]
    simp [GetTLSA, hsend, processTLSAResponse, hok, had, hrc]

/-- C1: EE matching. For a record with usage PkixEE (1) or DaneEE (3)
whose TLSA hash of `chain[0]` computes to `hash`, `ChainMatchesTLSA`
compares `hash` to the record data: on equality it authenticates
exactly when the usage is DaneEE or PKIX already succeeded, with the
corresponding diagnostics, and on inequality it fails with "did not
match EE certificate"; the record is always marked checked. -/
theorem c1_ChainMatchesTLSA_ee (chain : Chain) (tr : TLSArdata) (cfg : Config) (hash : String)
    (hu : tr.Usage = 1 ∨ tr.Usage = 3)
    (hh : ComputeTLSA tr.Selector tr.Mtype chain.head = Except.ok hash) :
    ((ChainMatchesTLSA chain tr cfg).1.Checked = true) ∧
    (hash = tr.Data → (tr.Usage = 3 ∨ cfg.Okpkix = true) →
      ChainMatchesTLSA chain tr cfg
        = ({ tr with Checked := true, Ok := true,
                     Message := "matched EE certificate" }, true)) ∧
    (hash = tr.Data → tr.Usage = 1 → cfg.Okpkix = false →
      ChainMatchesTLSA chain tr cfg
        = ({ tr with Checked := true, Ok := false,
                     Message := "matched EE certificate but PKIX failed" }, false)) ∧
    (hash ≠ tr.Data →
      ChainMatchesTLSA chain tr cfg
        = ({ tr with Checked := true, Ok := false,
                     Message := "did not match EE certificate" }, false)) := by
  have hcond : (tr.Usage = 1 ∨ tr.Usage = 3) = True := by simp [hu]
  refine ⟨?_, ?_, ?_, ?_⟩
  · by_cases hd : hash = tr.Data <;>
      by_cases hq : tr.Usage = 3 ∨ cfg.Okpkix = true <;>
      simp [ChainMatchesTLSA, hcond, hh, hd, hq]
  · intro hd hq
    simp [ChainMatchesTLSA, hcond, hh, hd, hq]
  · intro hd hu1 hpk
    have hq : ¬ (tr.Usage = 3 ∨ cfg.Okpkix = true) := by simp [hu1, hpk]
    simp [ChainMatchesTLSA, hcond, hh, hd, hq]
  · intro hd
    simp [ChainMatchesTLSA, hcond, hh, hd]

/-- Concrete TLSA record for witnesses: DaneEE, full cert, exact
match. -/
def trW : TLSArdata := { Usage := 3, Selector := 0, Mtype := 0, Data := "0001ab" }

/-- Concrete chain for witnesses. -/
def chainW : Chain := { head := certW, tail := [] }

/-- Witness for C1 at a concrete chain and record: the DaneEE record
matches the EE certificate. -/
theorem c1_witness :
    ChainMatchesTLSA chainW trW {}
      = ({ trW with Checked := true, Ok := true,
                    Message := "matched EE certificate" }, true) := by
  have h := c1_ChainMatchesTLSA_ee chainW trW {} "0001ab" (Or.inr rfl) rfl
  exact h.2.1 rfl (Or.inl rfl)

lemma ChainMatchesTLSA_set_checked (chain : Chain) (tr : TLSArdata) (cfg : Config) (b : Bool) :
    ChainMatchesTLSA chain { tr with Checked := b } cfg = ChainMatchesTLSA chain tr cfg := rfl

lemma smtpUsageOK_set_checked (tr : TLSArdata) (cfg : Config) (b : Bool) :
    smtpUsageOK { tr with Checked := b } cfg = smtpUsageOK tr cfg := rfl

lemma taLoop_fields (okpkix : Bool) :
    ∀ (l : List Certificate) (d : Nat) (tr : TLSArdata) (a h : Bool),
      (taLoop okpkix l d tr a h).1.Usage = tr.Usage ∧
      (taLoop okpkix l d tr a h).1.Selector = tr.Selector ∧
      (taLoop okpkix l d tr a h).1.Mtype = tr.Mtype ∧
      (taLoop okpkix l d tr a h).1.Data = tr.Data ∧
      (taLoop okpkix l d tr a h).1.Checked = tr.Checked := by
  intro l
  induction l with
  | nil => intro d tr a h; exact ⟨rfl, rfl, rfl, rfl, rfl⟩
  | cons c rest ih =>
    intro d tr a h
    rcases hcomp : ComputeTLSA tr.Selector tr.Mtype c with e | hash
    · simp [taLoop, hcomp]
    · simp only [taLoop, hcomp]
      split
      · exact ih (d + 1) tr a h
      · split
        · exact ih (d + 1) _ true true
        · exact ih (d + 1) _ a true

lemma chainMatches_fields (chain : Chain) (tr : TLSArdata) (cfg : Config) :
    (ChainMatchesTLSA chain tr cfg).1.Usage = tr.Usage ∧
    (ChainMatchesTLSA chain tr cfg).1.Selector = tr.Selector ∧
    (ChainMatchesTLSA chain tr cfg).1.Mtype = tr.Mtype ∧
    (ChainMatchesTLSA chain tr cfg).1.Data = tr.Data ∧
    (ChainMatchesTLSA chain tr cfg).1.Checked = true := by
  by_cases h13 : tr.Usage = 1 ∨ tr.Usage = 3
  · rcases hcomp : ComputeTLSA tr.Selector tr.Mtype chain.head with e | hash
    · simp [ChainMatchesTLSA, h13, hcomp]
    · by_cases hd : hash = tr.Data
      · by_cases hq : tr.Usage = 3 ∨ cfg.Okpkix = true
        · simp [ChainMatchesTLSA, h13, hcomp, hd, hq]
        · simp [ChainMatchesTLSA, h13, hcomp, hd, hq]
      · simp [ChainMatchesTLSA, h13, hcomp, hd]
  · by_cases h02 : tr.Usage = 0 ∨ tr.Usage = 2
    · have hf := taLoop_fields cfg.Okpkix chain.tail 1 { tr with Checked := true } false false
      by_cases hm :
          (taLoop cfg.Okpkix chain.tail 1 { tr with Checked := true } false false).2.2 = true
      · simp only [ChainMatchesTLSA, h13, h02] at hf ⊢
        simp [hm] at hf ⊢
        exact hf
      · simp only [ChainMatchesTLSA, h13, h02] at hf ⊢
        simp [hm] at hf ⊢
        exact hf
    · simp [ChainMatchesTLSA, h13, h02]

/-- C3: `AuthenticateSingle`. (a) Under `appname = "smtp"` with
`SMTPAnyMode` off, a record with usage outside {2, 3} is rejected
before any matching, regardless of the hash. (b) A matching DaneEE
record with `DaneEEname` off authenticates with no name check. (c)
Otherwise a matching record triggers the hostname check of the
end-entity certificate against `Server.Name`: success authenticates,
mismatch downgrades the record and returns false. -/
theorem c3_AuthenticateSingle_cases (chain : Chain) (tr : TLSArdata) (cfg : Config) :
    (cfg.Appname = "smtp" → cfg.SMTPAnyMode = false → ¬ (tr.Usage = 2 ∨ tr.Usage = 3) →
      AuthenticateSingle chain tr cfg
        = ({ tr with Checked := true, Ok := false,
                     Message := "invalid usage mode for smtp" }, false)) ∧
    ((ChainMatchesTLSA chain tr cfg).2 = true → tr.Usage = 3 → cfg.DaneEEname = false →
      AuthenticateSingle chain tr cfg = ((ChainMatchesTLSA chain tr cfg).1, true)) ∧
    (¬ (cfg.Appname = "smtp" ∧ smtpUsageOK tr cfg = false) →
     (ChainMatchesTLSA chain tr cfg).2 = true →
     ¬ (tr.Usage = 3 ∧ cfg.DaneEEname = false) →
       (chain.head.HostnameOK cfg.Server.Name = true →
          AuthenticateSingle chain tr cfg = ((ChainMatchesTLSA chain tr cfg).1, true)) ∧
       (chain.head.HostnameOK cfg.Server.Name = false →
          (AuthenticateSingle chain tr cfg).2 = false ∧
          (AuthenticateSingle chain tr cfg).1.Ok = false ∧
          (AuthenticateSingle chain tr cfg).1.Message
            = (ChainMatchesTLSA chain tr cfg).1.Message ++ " but name check failed")) := by
  refine ⟨?_, ?_, ?_⟩
  · intro ha hs hu
    have hrej : smtpUsageOK tr cfg = false := by
      simp [smtpUsageOK, hs, hu]
    simp [AuthenticateSingle, smtpUsageOK_set_checked, ha, hrej]
  · intro hm hu3 hn
    have hsm : smtpUsageOK tr cfg = true := by
      simp [smtpUsageOK, hu3]
    have husage : (ChainMatchesTLSA chain tr cfg).1.Usage = 3 :=
      (chainMatches_fields chain tr cfg).1.trans hu3
    simp [AuthenticateSingle, smtpUsageOK_set_checked, ChainMatchesTLSA_set_checked,
      hsm, hm, husage, hn]
  · intro hfil0 hm hnc
    have hfil : ¬ (cfg.Appname = "smtp" ∧ ¬ smtpUsageOK tr cfg = true) := by
      intro hand
      exact hfil0 ⟨hand.1, by simpa using hand.2⟩
    have hskip : ¬ ((ChainMatchesTLSA chain tr cfg).1.Usage = 3 ∧ cfg.DaneEEname = false) := by
      intro hand
      exact hnc ⟨((chainMatches_fields chain tr cfg).1).symm.trans hand.1, hand.2⟩
    have hsm2 : cfg.Appname = "smtp" → smtpUsageOK tr cfg = true := by
      intro ha
      cases hb : smtpUsageOK tr cfg
      · exact absurd ⟨ha, hb⟩ hfil0
      · rfl
    constructor
    · intro hhost
      simp [AuthenticateSingle, smtpUsageOK_set_checked, ChainMatchesTLSA_set_checked,
        hfil, hfil0, hsm2, hm, hskip, hhost]
    · intro hhost
      simp [AuthenticateSingle, smtpUsageOK_set_checked, ChainMatchesTLSA_set_checked,
        hfil, hfil0, hsm2, hm, hskip, hhost]

/-- Witness for C3 at a concrete input: SMTP rejects a PkixTA record
before matching. -/
theorem c3_witness :
    AuthenticateSingle chainW { Usage := 0, Selector := 0, Mtype := 0, Data := "0001ab" }
        { Appname := "smtp" }
      = ({ Usage := 0, Selector := 0, Mtype := 0, Data := "0001ab", Checked := true,
           Ok := false, Message := "invalid usage mode for smtp" }, false) := by
  have h := c3_AuthenticateSingle_cases chainW
    { Usage := 0, Selector := 0, Mtype := 0, Data := "0001ab" } { Appname := "smtp" }
  exact h.1 rfl rfl (by decide)

/-- The depths (1-based, over `chain[1:]`) at which the TLSA hash of
the certificate equals the record data — the reference description of
the TA loop's matching positions. A hash-computation failure
contributes no depth (the claims using this definition assume a valid
selector and matching type, under which no failure occurs). -/
def taMatchDepths (sel mt : Nat) (data : String) : List Certificate → Nat → List Nat
  | [], _ => []
  | c :: rest, d =>
    match ComputeTLSA sel mt c with
    | Except.ok h =>
      if h = data then d :: taMatchDepths sel mt data rest (d + 1)
      else taMatchDepths sel mt data rest (d + 1)
    | Except.error _ => taMatchDepths sel mt data rest (d + 1)

lemma computeTLSA_valid_ok (s m : Nat) (c : Certificate)
    (hs : s = 0 ∨ s = 1) (hm : m = 0 ∨ m = 1 ∨ m = 2) :
    ∃ out, ComputeTLSA s m c = Except.ok out := by
  rcases hs with rfl | rfl <;> rcases hm with rfl | rfl | rfl <;> exact ⟨_, rfl⟩

lemma taLoop_run (okpkix : Bool) :
    ∀ (l : List Certificate) (d : Nat) (tr : TLSArdata) (a h : Bool),
      (tr.Selector = 0 ∨ tr.Selector = 1) → (tr.Mtype = 0 ∨ tr.Mtype = 1 ∨ tr.Mtype = 2) →
      (taMatchDepths tr.Selector tr.Mtype tr.Data l d = [] →
        taLoop okpkix l d tr a h = (tr, a, h)) ∧
      (∀ D, (taMatchDepths tr.Selector tr.Mtype tr.Data l d).getLast? = some D →
        taLoop okpkix l d tr a h =
          if tr.Usage = 2 ∨ okpkix = true then
            ({ tr with Ok := true,
                       Message := "matched TA certificate at depth " ++ toString D },
             true, true)
          else
            ({ tr with Ok := false,
                       Message := "matched TA certificate at depth " ++ toString D
                                  ++ " but PKIX failed" },
             a, true)) := by
  intro l
  induction l with
  | nil =>
    intro d tr a h _ _
    exact ⟨fun _ => rfl, fun D hD => by simp [taMatchDepths] at hD⟩
  | cons c rest ih =>
    intro d tr a h hs hm
    obtain ⟨hash, hcomp⟩ := computeTLSA_valid_ok tr.Selector tr.Mtype c hs hm
    by_cases hd : hash = tr.Data
    · constructor
      · intro hnil
        simp [taMatchDepths, hcomp, hd] at hnil
      · intro D hD
        rw [show taMatchDepths tr.Selector tr.Mtype tr.Data (c :: rest) d
              = d :: taMatchDepths tr.Selector tr.Mtype tr.Data rest (d + 1) by
            simp [taMatchDepths, hcomp, hd]] at hD
        by_cases hq : tr.Usage = 2 ∨ okpkix = true
        · have hstep : taLoop okpkix (c :: rest) d tr a h
              = taLoop okpkix rest (d + 1)
                  { tr with Ok := true,
                            Message := "matched TA certificate at depth " ++ toString d }
                  true true := by
            simp [taLoop, hcomp, hd, hq]
          rw [hstep]
          rcases hrec : taMatchDepths tr.Selector tr.Mtype tr.Data rest (d + 1) with _ | ⟨d0, ds⟩
          · have hD' : d = D := by
              rw [hrec] at hD; simpa using hD
            rw [← hD']
            have := (ih (d + 1)
              { tr with Ok := true,
                        Message := "matched TA certificate at depth " ++ toString d }
              true true (by simpa using hs) (by simpa using hm)).1 (by simpa using hrec)
            rw [this]
            all_goals simp [hq]
          · have hD' : (taMatchDepths tr.Selector tr.Mtype tr.Data rest (d + 1)).getLast?
                = some D := by
              rw [hrec] at hD ⊢
              simpa [List.getLast?_cons_cons] using hD
            have := (ih (d + 1)
              { tr with Ok := true,
                        Message := "matched TA certificate at depth " ++ toString d }
              true true (by simpa using hs) (by simpa using hm)).2 D (by simpa using hD')
            rw [this]
            all_goals simp [hq]
        · have hstep : taLoop okpkix (c :: rest) d tr a h
              = taLoop okpkix rest (d + 1)
                  { tr with Ok := false,
                            Message := "matched TA certificate at depth " ++ toString d
                                       ++ " but PKIX failed" }
                  a true := by
            simp [taLoop, hcomp, hd, hq]
          rw [hstep]
          rcases hrec : taMatchDepths tr.Selector tr.Mtype tr.Data rest (d + 1) with _ | ⟨d0, ds⟩
          · have hD' : d = D := by
              rw [hrec] at hD; simpa using hD
            rw [← hD']
            have := (ih (d + 1)
              { tr with Ok := false,
                        Message := "matched TA certificate at depth " ++ toString d
                                   ++ " but PKIX failed" }
              a true (by simpa using hs) (by simpa using hm)).1 (by simpa using hrec)
            rw [this]
            all_goals simp [hq]
          · have hD' : (taMatchDepths tr.Selector tr.Mtype tr.Data rest (d + 1)).getLast?
                = some D := by
              rw [hrec] at hD ⊢
              simpa [List.getLast?_cons_cons] using hD
            have := (ih (d + 1)
              { tr with Ok := false,
                        Message := "matched TA certificate at depth " ++ toString d
                                   ++ " but PKIX failed" }
              a true (by simpa using hs) (by simpa using hm)).2 D (by simpa using hD')
            rw [this]
            all_goals simp [hq]
    · have hdep : taMatchDepths tr.Selector tr.Mtype tr.Data (c :: rest) d
          = taMatchDepths tr.Selector tr.Mtype tr.Data rest (d + 1) := by
        simp [taMatchDepths, hcomp, hd]
      have hstep : taLoop okpkix (c :: rest) d tr a h = taLoop okpkix rest (d + 1) tr a h := by
        simp [taLoop, hcomp, hd]
      rw [hdep, hstep]
      exact ih (d + 1) tr a h hs hm

/-- C2: TA matching. For a chain of length at least 2 and a record
with usage PkixTA (0) or DaneTA (2) whose selector and matching type
are valid, `ChainMatchesTLSA` walks `chain[1:]` at depths 1, 2, ...;
when no depth matches it fails with "did not match any TA
certificate"; when some depths match, the loop continues past each
match, so the record carries the diagnostic of the last matching depth
`D`, authenticated exactly when the usage is DaneTA or PKIX already
succeeded. -/
theorem c2_ChainMatchesTLSA_ta (chain : Chain) (tr : TLSArdata) (cfg : Config)
    (hu : tr.Usage = 0 ∨ tr.Usage = 2)
    (hs : tr.Selector = 0 ∨ tr.Selector = 1)
    (hmt : tr.Mtype = 0 ∨ tr.Mtype = 1 ∨ tr.Mtype = 2)
    (hne : chain.tail ≠ []) :
    ((ChainMatchesTLSA chain tr cfg).1.Checked = true) ∧
    (taMatchDepths tr.Selector tr.Mtype tr.Data chain.tail 1 = [] →
      ChainMatchesTLSA chain tr cfg
        = ({ tr with Checked := true, Ok := false,
                     Message := "did not match any TA certificate" }, false)) ∧
    (∀ D, (taMatchDepths tr.Selector tr.Mtype tr.Data chain.tail 1).getLast? = some D →
      ((tr.Usage = 2 ∨ cfg.Okpkix = true) →
        ChainMatchesTLSA chain tr cfg
          = ({ tr with Checked := true, Ok := true,
                       Message := "matched TA certificate at depth " ++ toString D }, true)) ∧
      (tr.Usage = 0 → cfg.Okpkix = false →
        ChainMatchesTLSA chain tr cfg
          = ({ tr with Checked := true, Ok := false,
                       Message := "matched TA certificate at depth " ++ toString D
                                  ++ " but PKIX failed" }, false))) := by
  have h13 : ¬ (tr.Usage = 1 ∨ tr.Usage = 3) := by
    rcases hu with h | h <;> simp [h]
  have hrun := taLoop_run cfg.Okpkix chain.tail 1 { tr with Checked := true } false false
    (by simpa using hs) (by simpa using hmt)
  refine ⟨(chainMatches_fields chain tr cfg).2.2.2.2, ?_, ?_⟩
  · intro hnil
    have hloop := hrun.1 (by simpa using hnil)
    simp [ChainMatchesTLSA, h13, hu, hloop]
  · intro D hD
    have hloop := hrun.2 D (by simpa using hD)
    constructor
    · intro hq
      rw [if_pos (by simpa using hq)] at hloop
      simp [ChainMatchesTLSA, h13, hu, hloop]
    · intro hu0 hpk
      rw [if_neg (by simp [hu0, hpk])] at hloop
      simp [ChainMatchesTLSA, h13, hu, hloop]

/-- Certificate whose DER is the byte 0xde, for the C2 witness. -/
def certDE : Certificate :=
  { Raw := [222], RawSubjectPublicKeyInfo := [222], HostnameOK := fun _ => true }

/-- Witness for C2 at a concrete chain where depths 1 and 2 both
match: the last match (depth 2) is the diagnostic left behind. -/
theorem c2_witness :
    ChainMatchesTLSA { head := certW, tail := [certDE, certDE] }
        { Usage := 2, Selector := 0, Mtype := 0, Data := "de" } {}
      = ({ Usage := 2, Selector := 0, Mtype := 0, Data := "de", Checked := true,
           Ok := true, Message := "matched TA certificate at depth 2" }, true) := by
  have h := c2_ChainMatchesTLSA_ta { head := certW, tail := [certDE, certDE] }
    { Usage := 2, Selector := 0, Mtype := 0, Data := "de" } {}
    (Or.inr rfl) (Or.inl rfl) (Or.inl rfl) (by simp)
  have h2 := (h.2.2 2 rfl).1 (Or.inl rfl)
  simpa using h2

lemma taLoop_congr (okpkix : Bool) :
    ∀ (l : List Certificate) (d : Nat) (trA trB : TLSArdata) (a h : Bool),
      trA.Usage = trB.Usage → trA.Selector = trB.Selector → trA.Mtype = trB.Mtype →
      trA.Data = trB.Data → trA.Checked = trB.Checked →
      (taLoop okpkix l d trA a h).2 = (taLoop okpkix l d trB a h).2 ∧
      (((taLoop okpkix l d trA a h).1 = trA ∧ (taLoop okpkix l d trB a h).1 = trB ∧
        (taLoop okpkix l d trA a h).2 = (a, h)) ∨
       (taLoop okpkix l d trA a h).1 = (taLoop okpkix l d trB a h).1) := by
  intro l
  induction l with
  | nil =>
    intro d trA trB a h _ _ _ _ _
    exact ⟨rfl, Or.inl ⟨rfl, rfl, rfl⟩⟩
  | cons c rest ih =>
    intro d trA trB a h hU hS hM hD hC
    obtain ⟨uA, sA, mA, dA, cA, oA, msgA⟩ := trA
    obtain ⟨uB, sB, mB, dB, cB, oB, msgB⟩ := trB
    simp only at hU hS hM hD hC
    subst hU hS hM hD hC
    rcases hcomp : ComputeTLSA sA mA c with e | hash
    · simp [taLoop, hcomp]
    · by_cases hd : hash ≠ dA
      · simp only [taLoop, hcomp]
        rw [if_pos hd, if_pos hd]
        exact ih (d + 1) _ _ a h rfl rfl rfl rfl rfl
      · by_cases hq : uA = 2 ∨ okpkix = true
        · simp [taLoop, hcomp, hd, hq]
        · simp [taLoop, hcomp, hd, hq]

lemma ChainMatchesTLSA_congr_state (chain : Chain) (cfg : Config) (trA trB : TLSArdata)
    (hU : trA.Usage = trB.Usage) (hS : trA.Selector = trB.Selector)
    (hM : trA.Mtype = trB.Mtype) (hD : trA.Data = trB.Data) :
    ChainMatchesTLSA chain trA cfg = ChainMatchesTLSA chain trB cfg := by
  obtain ⟨uA, sA, mA, dA, cA, oA, msgA⟩ := trA
  obtain ⟨uB, sB, mB, dB, cB, oB, msgB⟩ := trB
  simp only at hU hS hM hD
  subst hU hS hM hD
  simp only [ChainMatchesTLSA]
  by_cases h13 : uA = 1 ∨ uA = 3
  · rcases hcomp : ComputeTLSA sA mA chain.head with e | hash
    · simp [h13, hcomp]
    · by_cases hd : hash = dA
      · by_cases hq : uA = 3 ∨ cfg.Okpkix = true
        · simp [h13, hcomp, hd, hq]
        · simp [h13, hcomp, hd, hq]
      · simp [h13, hcomp, hd]
  · by_cases h02 : uA = 0 ∨ uA = 2
    · have hcg := taLoop_congr cfg.Okpkix chain.tail 1
        { Usage := uA, Selector := sA, Mtype := mA, Data := dA, Checked := true,
          Ok := oA, Message := msgA }
        { Usage := uA, Selector := sA, Mtype := mA, Data := dA, Checked := true,
          Ok := oB, Message := msgB }
        false false rfl rfl rfl rfl rfl
      simp only [h13, h02, if_true, if_false]
      obtain ⟨h2eq, hdisj⟩ := hcg
      rcases hdisj with ⟨hA, hB, hfl⟩ | heq
      · have hfl2 : (taLoop cfg.Okpkix chain.tail 1
            { Usage := uA, Selector := sA, Mtype := mA, Data := dA, Checked := true,
              Ok := oB, Message := msgB } false false).2 = (false, false) := by
          rw [← h2eq, hfl]
        simp [hA, hB, hfl, hfl2]
      · simp [heq, h2eq]
    · simp [h13, h02]

lemma AuthenticateSingle_congr_state (chain : Chain) (cfg : Config) (trA trB : TLSArdata)
    (hU : trA.Usage = trB.Usage) (hS : trA.Selector = trB.Selector)
    (hM : trA.Mtype = trB.Mtype) (hD : trA.Data = trB.Data) :
    AuthenticateSingle chain trA cfg = AuthenticateSingle chain trB cfg := by
  obtain ⟨uA, sA, mA, dA, cA, oA, msgA⟩ := trA
  obtain ⟨uB, sB, mB, dB, cB, oB, msgB⟩ := trB
  simp only at hU hS hM hD
  subst hU hS hM hD
  have hcm : ChainMatchesTLSA chain
      { Usage := uA, Selector := sA, Mtype := mA, Data := dA, Checked := true,
        Ok := oA, Message := msgA } cfg
      = ChainMatchesTLSA chain
      { Usage := uA, Selector := sA, Mtype := mA, Data := dA, Checked := true,
        Ok := oB, Message := msgB } cfg :=
    ChainMatchesTLSA_congr_state chain cfg _ _ rfl rfl rfl rfl
  have hsm : smtpUsageOK
      { Usage := uA, Selector := sA, Mtype := mA, Data := dA, Checked := true,
        Ok := oA, Message := msgA } cfg
      = smtpUsageOK
      { Usage := uA, Selector := sA, Mtype := mA, Data := dA, Checked := true,
        Ok := oB, Message := msgB } cfg := rfl
  simp only [AuthenticateSingle]
  rw [hcm, hsm]

lemma AuthenticateSingle_fields (chain : Chain) (tr : TLSArdata) (cfg : Config) :
    (AuthenticateSingle chain tr cfg).1.Usage = tr.Usage ∧
    (AuthenticateSingle chain tr cfg).1.Selector = tr.Selector ∧
    (AuthenticateSingle chain tr cfg).1.Mtype = tr.Mtype ∧
    (AuthenticateSingle chain tr cfg).1.Data = tr.Data ∧
    (AuthenticateSingle chain tr cfg).1.Checked = true := by
  have hcm := chainMatches_fields chain tr cfg
  rw [show ChainMatchesTLSA chain tr cfg
      = ChainMatchesTLSA chain { tr with Checked := true } cfg from rfl] at hcm
  simp only [AuthenticateSingle]
  split
  · exact ⟨rfl, rfl, rfl, rfl, rfl⟩
  · split
    · exact hcm
    · split
      · exact hcm
      · split
        · exact hcm
        · exact ⟨hcm.1, hcm.2.1, hcm.2.2.1, hcm.2.2.2.1, hcm.2.2.2.2⟩

lemma AuthenticateSingle_okdane (chain : Chain) (tr : TLSArdata) (cfg : Config) (b : Bool)
    (o : Option TLSAinfo) :
    AuthenticateSingle chain tr { cfg with Okdane := b, TLSA := o }
      = AuthenticateSingle chain tr cfg := rfl

lemma chainsFor_okdane (cfg : Config) (tr : TLSArdata) (b : Bool) (o : Option TLSAinfo) :
    chainsFor { cfg with Okdane := b, TLSA := o } tr = chainsFor cfg tr := rfl

lemma authChains_cons (cfg : Config) (ch : Chain) (rest : List Chain) (tr : TLSArdata)
    (ok : Bool) :
    authChains cfg (ch :: rest) tr ok
      = authChains cfg rest (AuthenticateSingle ch tr cfg).1
          (ok || (AuthenticateSingle ch tr cfg).2) := rfl

lemma authChains_bool (cfg : Config) :
    ∀ (chains : List Chain) (tr : TLSArdata) (ok : Bool),
      (authChains cfg chains tr ok).2
        = (ok || chains.any (fun ch => (AuthenticateSingle ch tr cfg).2)) := by
  intro chains
  induction chains with
  | nil => intro tr ok; simp [authChains]
  | cons ch rest ih =>
    intro tr ok
    rw [authChains_cons, ih]
    have hfld := AuthenticateSingle_fields ch tr cfg
    have hfun : (fun ch' => (AuthenticateSingle ch' (AuthenticateSingle ch tr cfg).1 cfg).2)
        = (fun ch' => (AuthenticateSingle ch' tr cfg).2) := by
      funext ch'
      rw [AuthenticateSingle_congr_state ch' cfg _ tr hfld.1 hfld.2.1 hfld.2.2.1 hfld.2.2.2.1]
    rw [hfun]
    simp [Bool.or_assoc]

lemma authChains_checked (cfg : Config) :
    ∀ (chains : List Chain) (tr : TLSArdata) (ok : Bool), chains ≠ [] →
      (authChains cfg chains tr ok).1.Checked = true := by
  intro chains
  induction chains with
  | nil => intro tr ok h; exact absurd rfl h
  | cons ch rest ih =>
    intro tr ok _
    rw [authChains_cons]
    cases rest with
    | nil => exact (AuthenticateSingle_fields ch tr cfg).2.2.2.2
    | cons c2 r2 => exact ih _ _ (by simp)

lemma usageSelect_eq_chainsFor (cfg : Config) (tr : TLSArdata) (cs : List Chain)
    (h : tr.Usage ≤ 3) :
    (if tr.Usage = 3 ∨ tr.Usage = 2 then cfg.DANEChains
     else if tr.Usage = 1 ∨ tr.Usage = 0 then cfg.PKIXChains
     else cs) = chainsFor cfg tr := by
  by_cases h32 : tr.Usage = 3 ∨ tr.Usage = 2
  · rw [if_pos h32]
    simp only [chainsFor]
    rw [if_pos h32]
  · have h10 : tr.Usage = 1 ∨ tr.Usage = 0 := by omega
    rw [if_neg h32, if_pos h10]
    simp only [chainsFor]
    rw [if_neg h32]

lemma authRecords_spec (cfg : Config) :
    ∀ (rdata : List TLSArdata) (cs : List Chain) (ok : Bool),
      (∀ tr ∈ rdata, tr.Usage ≤ 3) →
      ((authRecords cfg rdata cs ok).2
        = (ok || rdata.any (fun tr => (chainsFor cfg tr).any
            (fun ch => (AuthenticateSingle ch tr cfg).2)))) ∧
      (authRecords cfg rdata cs ok).1.length = rdata.length ∧
      (∀ k, k < rdata.length →
        chainsFor cfg (rdata.getD k default) ≠ [] →
        ((authRecords cfg rdata cs ok).1.getD k default).Checked = true) := by
  intro rdata
  induction rdata with
  | nil =>
    intro cs ok _
    refine ⟨by simp [authRecords], rfl, ?_⟩
    intro k hk
    exact absurd hk (by simp)
  | cons tr rest ih =>
    intro cs ok hus
    have htr : tr.Usage ≤ 3 := hus tr (by simp)
    have hrest : ∀ tr' ∈ rest, tr'.Usage ≤ 3 := fun tr' h' => hus tr' (by simp [h'])
    have hsel := usageSelect_eq_chainsFor cfg tr cs htr
    have hstep : authRecords cfg (tr :: rest) cs ok
        = ((authChains cfg (chainsFor cfg tr) tr ok).1
            :: (authRecords cfg rest (chainsFor cfg tr)
                  (authChains cfg (chainsFor cfg tr) tr ok).2).1,
           (authRecords cfg rest (chainsFor cfg tr)
              (authChains cfg (chainsFor cfg tr) tr ok).2).2) := by
      simp only [authRecords]
      rw [hsel]
    have hih := ih (chainsFor cfg tr) (authChains cfg (chainsFor cfg tr) tr ok).2 hrest
    refine ⟨?_, ?_, ?_⟩
    · rw [hstep]
      simp only []
      rw [hih.1, authChains_bool]
      simp [Bool.or_assoc]
    · rw [hstep]
      simpa using hih.2.1
    · intro k hk hcf
      rw [hstep]
      rcases k with _ | k'
      · simp only [List.getD_cons_zero]
        exact authChains_checked cfg _ tr ok (by simpa using hcf)
      · simp only [List.getD_cons_succ]
        exact hih.2.2 k' (by simpa using hk) (by simpa using hcf)

/-- C4 counterexample: a Config whose single DaneEE record faces an
empty DANE chain list: `AuthenticateAll` returns with the record still
unchecked, refuting the claim that every record has `checked = true`
on return. -/
def c4cfg : Config :=
  { TLSA := some { Qname := "x", Alias := [],
                   Rdata := [{ Usage := 3, Selector := 0, Mtype := 0, Data := "aa" }] } }

/-- C4 counterexample (see `c4cfg`): after `AuthenticateAll`, the
record's checked flag is still false because its chain list is
empty. -/
theorem c4_counterexample :
    (AuthenticateAll c4cfg).map
        (fun c => c.TLSA.map (fun t => t.Rdata.map TLSArdata.Checked))
      = some (some [false]) ∧
    c4cfg.DANEChains = [] := by
  exact ⟨rfl, rfl⟩

/-- C4 amended: `AuthenticateAll` first clears `Okdane`, probes every
record of `config.tlsa.rdata` with no early exit — DANE usages (2, 3)
against the DANE-verified chains, PKIX usages (0, 1) against the
PKIX-verified chains — calling `AuthenticateSingle` on every (chain,
record) pair, and `Okdane` ends true exactly when some pair
authenticates; on return every record *whose selected chain list is
non-empty* has `checked = true` (a record facing an empty chain list
is never probed and keeps `checked = false`). -/
theorem c4_AuthenticateAll (cfg : Config) (t : TLSAinfo) (cfg' : Config) (t' : TLSAinfo)
    (htl : cfg.TLSA = some t)
    (hus : ∀ tr ∈ t.Rdata, tr.Usage ≤ 3)
    (hres : AuthenticateAll cfg = some cfg')
    (htl' : cfg'.TLSA = some t') :
    (cfg'.Okdane = true ↔ ∃ tr ∈ t.Rdata, ∃ ch ∈ chainsFor cfg tr,
        (AuthenticateSingle ch tr cfg).2 = true) ∧
    t'.Rdata.length = t.Rdata.length ∧
    (∀ k, k < t.Rdata.length →
      chainsFor cfg (t.Rdata.getD k default) ≠ [] →
      (t'.Rdata.getD k default).Checked = true) := by
  simp only [AuthenticateAll, htl] at hres
  have hAS : ∀ (ch : Chain) (tr : TLSArdata),
      AuthenticateSingle ch tr { cfg with Okdane := false, TLSA := some t }
        = AuthenticateSingle ch tr cfg :=
    fun ch tr => AuthenticateSingle_okdane ch tr cfg false (some t)
  have hCF : ∀ tr : TLSArdata,
      chainsFor { cfg with Okdane := false, TLSA := some t } tr = chainsFor cfg tr :=
    fun tr => chainsFor_okdane cfg tr false (some t)
  have hspec := authRecords_spec { cfg with Okdane := false, TLSA := some t }
    t.Rdata [] false hus
  have hcfg' := Option.some.inj hres
  subst hcfg'
  have ht' : t' = { t with
      Rdata := (authRecords { cfg with Okdane := false, TLSA := some t }
        t.Rdata [] false).1 } := by
    simpa using htl'.symm
  subst ht'
  refine ⟨?_, ?_, ?_⟩
  · show (authRecords { cfg with Okdane := false, TLSA := some t }
        t.Rdata [] false).2 = true ↔ _
    rw [hspec.1, Bool.false_or, List.any_eq_true]
    constructor
    · rintro ⟨tr, htr, hany⟩
      rw [List.any_eq_true] at hany
      obtain ⟨ch, hch, hok⟩ := hany
      exact ⟨tr, htr, ch, by rw [hCF] at hch; exact hch, by rw [hAS] at hok; exact hok⟩
    · rintro ⟨tr, htr, ch, hch, hok⟩
      exact ⟨tr, htr, List.any_eq_true.mpr ⟨ch, by rw [hCF]; exact hch, by rw [hAS]; exact hok⟩⟩
  · show (authRecords { cfg with Okdane := false, TLSA := some t }
        t.Rdata [] false).1.length = t.Rdata.length
    exact hspec.2.1
  · intro k hk hcf
    show ((authRecords { cfg with Okdane := false, TLSA := some t }
        t.Rdata [] false).1.getD k default).Checked = true
    exact hspec.2.2 k hk (by rw [hCF]; exact hcf)

/-- Record, TLSAinfo and Config for the C4 witness. -/
def c4wtr : TLSArdata := { Usage := 3, Selector := 0, Mtype := 0, Data := "0001ab" }

def c4wt : TLSAinfo := { Qname := "x", Alias := [], Rdata := [c4wtr] }

def c4wcfg : Config := { TLSA := some c4wt, DANEChains := [chainW] }

def c4wtres : TLSAinfo :=
  { Qname := "x", Alias := [],
    Rdata := [{ Usage := 3, Selector := 0, Mtype := 0, Data := "0001ab",
                Checked := true, Ok := true, Message := "matched EE certificate" }] }

def c4wres : Config := { c4wcfg with Okdane := true, TLSA := some c4wtres }

/-- Witness for C4 (amended) at a concrete Config: the single DaneEE
record matches the single DANE chain, so `Okdane` ends true. -/
theorem c4_witness :
    AuthenticateAll c4wcfg = some c4wres ∧ c4wres.Okdane = true := by
  have hres : AuthenticateAll c4wcfg = some c4wres := rfl
  have h := c4_AuthenticateAll c4wcfg c4wt c4wres c4wtres rfl
    (by intro tr htr; simp [c4wt, c4wtr] at htr; simp [htr, c4wtr]) hres rfl
  exact ⟨hres, h.1.mpr ⟨c4wtr, by simp [c4wt], chainW,
    by exact List.mem_singleton.mpr rfl, rfl⟩⟩

lemma heapRead_lt {h : Heap} {r : Nat} (hr : r < h.length) : heapRead h r = h[r] :=
  List.getD_eq_getElem h default hr

lemma heapRead_append {h xs : Heap} {r : Nat} (hr : r < h.length) :
    heapRead (h ++ xs) r = heapRead h r :=
  List.getD_append h xs default r hr

lemma heapRead_append_right {h xs : Heap} {r : Nat} (hr : h.length ≤ r) :
    heapRead (h ++ xs) r = heapRead xs (r - h.length) :=
  List.getD_append_right h xs default r hr

lemma heapRead_set_ne {h : Heap} {r j : Nat} {v : TLSArdata} (hne : r ≠ j) :
    heapRead (h.set r v) j = heapRead h j := by
  simp [heapRead, List.getD_eq_getElem?_getD, List.getElem?_set_ne hne]

lemma clearMatch_idem (x : TLSArdata) : clearMatch (clearMatch x) = clearMatch x := rfl

lemma set_heapRead_self (h : Heap) (r : Nat) : h.set r (heapRead h r) = h := by
  by_cases hr : r < h.length
  · apply List.ext_getElem?
    intro i
    by_cases hi : i = r
    · subst hi
      rw [List.getElem?_set_self hr, heapRead_lt hr, List.getElem?_eq_getElem hr]
    · exact List.getElem?_set_ne (fun he => hi he.symm)
  · exact List.set_eq_of_length_le (Nat.le_of_not_lt hr)

lemma copyCells_spec :
    ∀ (refs : List Nat) (h : Heap), (∀ r ∈ refs, r < h.length) →
      copyCells h refs
        = (h ++ refs.map (fun r => clearMatch (heapRead h r)),
           List.range' h.length refs.length) := by
  intro refs
  induction refs with
  | nil => intro h _; simp [copyCells]
  | cons r rest ih =>
    intro h hv
    have hr : r < h.length := hv r (by simp)
    have hv' : ∀ x ∈ rest, x < (h ++ [clearMatch (heapRead h r)]).length := by
      intro x hx
      have := hv x (by simp [hx])
      simp only [List.length_append, List.length_cons, List.length_nil]
      omega
    have hrec := ih (h ++ [clearMatch (heapRead h r)]) hv'
    have hread : ∀ x ∈ rest, heapRead (h ++ [clearMatch (heapRead h r)]) x = heapRead h x := by
      intro x hx
      exact heapRead_append (hv x (by simp [hx]))
    simp only [copyCells]
    rw [show ({ Usage := (heapRead h r).Usage, Selector := (heapRead h r).Selector,
                Mtype := (heapRead h r).Mtype, Data := (heapRead h r).Data } : TLSArdata)
        = clearMatch (heapRead h r) from rfl]
    rw [hrec]
    refine Prod.ext ?_ ?_
    · show (h ++ [clearMatch (heapRead h r)])
          ++ rest.map (fun x => clearMatch (heapRead (h ++ [clearMatch (heapRead h r)]) x))
        = h ++ (r :: rest).map (fun x => clearMatch (heapRead h x))
      rw [List.map_congr_left (fun x hx => by rw [hread x hx])]
      simp [List.append_assoc]
    · show h.length :: List.range' (h ++ [clearMatch (heapRead h r)]).length rest.length
        = List.range' h.length (rest.length + 1)
      rw [List.range'_succ]
      simp [Nat.add_comm]

lemma uncheckFold_noop :
    ∀ (refs : List Nat) (h : Heap),
      (∀ r ∈ refs, clearMatch (heapRead h r) = heapRead h r) →
      refs.foldl
        (fun h r => h.set r { heapRead h r with Checked := false, Ok := false, Message := "" })
        h = h := by
  intro refs
  induction refs with
  | nil => intro h _; rfl
  | cons r rest ih =>
    intro h hcl
    have hstep : h.set r { heapRead h r with Checked := false, Ok := false, Message := "" }
        = h := by
      rw [show ({ heapRead h r with Checked := false, Ok := false, Message := "" } : TLSArdata)
          = clearMatch (heapRead h r) from rfl]
      rw [hcl r (by simp)]
      exact set_heapRead_self h r
    show List.foldl
        (fun h r =>
          h.set r { heapRead h r with Checked := false, Ok := false, Message := "" })
        (h.set r { heapRead h r with Checked := false, Ok := false, Message := "" })
        rest = h
    rw [hstep]
    exact ih h (fun x hx => hcl x (by simp [hx]))

lemma SetTLSA_spec (h : Heap) (t : TLSAinfoRef) (hv : ∀ r ∈ t.Rdata, r < h.length) :
    SetTLSA h t
      = (h ++ t.Rdata.map (fun r => clearMatch (heapRead h r)),
         { Qname := t.Qname, Alias := t.Alias,
           Rdata := List.range' h.length t.Rdata.length }) := by
  have hc := copyCells_spec t.Rdata h hv
  have hfresh : ∀ r ∈ List.range' h.length t.Rdata.length,
      clearMatch (heapRead (h ++ t.Rdata.map (fun x => clearMatch (heapRead h x))) r)
        = heapRead (h ++ t.Rdata.map (fun x => clearMatch (heapRead h x))) r := by
    intro r hrm
    rw [List.mem_range'_1] at hrm
    have hsub : r - h.length < (t.Rdata.map (fun x => clearMatch (heapRead h x))).length := by
      simp only [List.length_map]
      omega
    rw [heapRead_append_right hrm.1, heapRead_lt hsub, List.getElem_map]
    exact clearMatch_idem _
  simp only [SetTLSA, Copy]
  rw [hc]
  refine Prod.ext ?_ rfl
  show Uncheck _ _ = _
  simp only [Uncheck]
  exact uncheckFold_noop _ _ hfresh

lemma map_range'_read :
    ∀ (refs : List Nat) (s : Nat) (H : Heap) (f : Nat → TLSArdata),
      (∀ i (hi : i < refs.length), heapRead H (s + i) = f refs[i]) →
      (List.range' s refs.length).map (heapRead H) = refs.map f := by
  intro refs
  induction refs with
  | nil => intro s H f _; rfl
  | cons r rest ih =>
    intro s H f hpt
    rw [show (r :: rest).length = rest.length + 1 from rfl, List.range'_succ]
    simp only [List.map_cons]
    refine congrArg₂ _ ?_ ?_
    · have := hpt 0 (by simp)
      simpa using this
    · refine ih (s + 1) H f ?_
      intro i hi
      have := hpt (i + 1) (by simpa using Nat.succ_lt_succ hi)
      rw [show s + 1 + i = s + (i + 1) by omega]
      simpa using this

/-- C6: `SetTLSA` stores a deep copy. Run `SetTLSA` twice from the
same source `t` (Config A's copy, then Config B's copy on the
resulting heap): both copies read back as the source with qname,
aliases and the four data fields preserved and the match state
cleared; and writing any match state through a pointer of copy A
changes neither the source's view nor copy B's view of the heap. -/
theorem c6_SetTLSA_deep_copy (h : Heap) (t : TLSAinfoRef)
    (hv : ∀ r ∈ t.Rdata, r < h.length) :
    readInfo (SetTLSA (SetTLSA h t).1 t).1 (SetTLSA h t).2
      = { Qname := t.Qname, Alias := t.Alias,
          Rdata := (readInfo h t).Rdata.map clearMatch } ∧
    readInfo (SetTLSA (SetTLSA h t).1 t).1 (SetTLSA (SetTLSA h t).1 t).2
      = { Qname := t.Qname, Alias := t.Alias,
          Rdata := (readInfo h t).Rdata.map clearMatch } ∧
    (∀ r ∈ (SetTLSA h t).2.Rdata, ∀ chk ok msg,
      readInfo (setMatchState (SetTLSA (SetTLSA h t).1 t).1 r chk ok msg) t
          = readInfo (SetTLSA (SetTLSA h t).1 t).1 t ∧
      readInfo (setMatchState (SetTLSA (SetTLSA h t).1 t).1 r chk ok msg)
            (SetTLSA (SetTLSA h t).1 t).2
          = readInfo (SetTLSA (SetTLSA h t).1 t).1 (SetTLSA (SetTLSA h t).1 t).2) := by
  have e12 := SetTLSA_spec h t hv
  have hv1 : ∀ r ∈ t.Rdata, r < (h ++ t.Rdata.map (fun x => clearMatch (heapRead h x))).length := by
    intro r hr
    have := hv r hr
    simp only [List.length_append]
    omega
  have hC1 : t.Rdata.map
      (fun r => clearMatch (heapRead (h ++ t.Rdata.map (fun x => clearMatch (heapRead h x))) r))
      = t.Rdata.map (fun x => clearMatch (heapRead h x)) :=
    List.map_congr_left (fun r hr => by rw [heapRead_append (hv r hr)])
  have e3 := SetTLSA_spec (h ++ t.Rdata.map (fun x => clearMatch (heapRead h x))) t hv1
  rw [hC1] at e3
  have hMlen : (t.Rdata.map (fun x => clearMatch (heapRead h x))).length = t.Rdata.length := by
    simp
  have hpt1 : ∀ i (hi : i < t.Rdata.length),
      heapRead ((h ++ t.Rdata.map (fun x => clearMatch (heapRead h x)))
          ++ t.Rdata.map (fun x => clearMatch (heapRead h x))) (h.length + i)
        = clearMatch (heapRead h t.Rdata[i]) := by
    intro i hi
    have hb1 : h.length + i
        < (h ++ t.Rdata.map (fun x => clearMatch (heapRead h x))).length := by
      simp only [List.length_append, hMlen]
      omega
    rw [heapRead_append hb1, heapRead_append_right (Nat.le_add_right _ _),
      Nat.add_sub_cancel_left, heapRead_lt (by rw [hMlen]; exact hi), List.getElem_map]
  have hpt2 : ∀ i (hi : i < t.Rdata.length),
      heapRead ((h ++ t.Rdata.map (fun x => clearMatch (heapRead h x)))
          ++ t.Rdata.map (fun x => clearMatch (heapRead h x)))
        ((h ++ t.Rdata.map (fun x => clearMatch (heapRead h x))).length + i)
        = clearMatch (heapRead h t.Rdata[i]) := by
    intro i hi
    rw [heapRead_append_right (Nat.le_add_right _ _), Nat.add_sub_cancel_left,
      heapRead_lt (by rw [hMlen]; exact hi), List.getElem_map]
  refine ⟨?_, ?_, ?_⟩
  · rw [e12]
    dsimp only
    rw [e3]
    dsimp only
    simp only [readInfo, List.map_map]
    refine congrArg (fun x => TLSAinfo.mk t.Qname t.Alias x) ?_
    exact map_range'_read t.Rdata h.length
      ((h ++ t.Rdata.map (fun x => clearMatch (heapRead h x)))
        ++ t.Rdata.map (fun x => clearMatch (heapRead h x)))
      (fun r => clearMatch (heapRead h r)) hpt1
  · rw [e12]
    dsimp only
    rw [e3]
    dsimp only
    simp only [readInfo, List.map_map]
    refine congrArg (fun x => TLSAinfo.mk t.Qname t.Alias x) ?_
    have := map_range'_read t.Rdata
      (h ++ t.Rdata.map (fun x => clearMatch (heapRead h x))).length
      ((h ++ t.Rdata.map (fun x => clearMatch (heapRead h x)))
        ++ t.Rdata.map (fun x => clearMatch (heapRead h x)))
      (fun r => clearMatch (heapRead h r)) hpt2
    simp only [List.length_append, hMlen] at this ⊢
    simpa [Function.comp] using this
  · intro r hrm chk ok msg
    rw [e12] at hrm
    dsimp only at hrm
    rw [List.mem_range'_1] at hrm
    rw [e12]
    dsimp only
    rw [e3]
    dsimp only
    constructor
    · simp only [readInfo, setMatchState]
      refine congrArg (fun x => TLSAinfo.mk t.Qname t.Alias x) ?_
      refine List.map_congr_left ?_
      intro j hj
      exact heapRead_set_ne (by have := hv j hj; omega)
    · simp only [readInfo, setMatchState]
      refine congrArg (fun x => TLSAinfo.mk t.Qname t.Alias x) ?_
      refine List.map_congr_left ?_
      intro j hj
      rw [List.mem_range'_1, List.length_append, hMlen] at hj
      exact heapRead_set_ne (by omega)

/-- Concrete heap and source TLSAinfo for the C6 witness: one record
with dirty match state. -/
def h6w : Heap :=
  [{ Usage := 3, Selector := 1, Mtype := 1, Data := "ab", Checked := true, Ok := true,
     Message := "old" }]

def t6w : TLSAinfoRef := { Qname := "q", Alias := ["al"], Rdata := [0] }

/-- Witness for C6 at a concrete heap: the copy reads back with the
data fields preserved and the match state cleared. -/
theorem c6_witness :
    readInfo (SetTLSA (SetTLSA h6w t6w).1 t6w).1 (SetTLSA h6w t6w).2
      = { Qname := "q", Alias := ["al"],
          Rdata := [{ Usage := 3, Selector := 1, Mtype := 1, Data := "ab" }] } := by
  have hc := c6_SetTLSA_deep_copy h6w t6w (by decide)
  rw [hc.1]
  decide

lemma authChains_congr (cfgA cfgB : Config)
    (hAS : ∀ ch tr, AuthenticateSingle ch tr cfgA = AuthenticateSingle ch tr cfgB) :
    ∀ (chains : List Chain) (tr : TLSArdata) (ok : Bool),
      authChains cfgA chains tr ok = authChains cfgB chains tr ok := by
  intro chains
  induction chains with
  | nil => intro tr ok; rfl
  | cons ch rest ih =>
    intro tr ok
    rw [authChains_cons, authChains_cons, hAS, ih]

lemma authRecords_congr (cfgA cfgB : Config)
    (hAS : ∀ ch tr, AuthenticateSingle ch tr cfgA = AuthenticateSingle ch tr cfgB)
    (hD : cfgA.DANEChains = cfgB.DANEChains) (hP : cfgA.PKIXChains = cfgB.PKIXChains) :
    ∀ (rdata : List TLSArdata) (cs : List Chain) (ok : Bool),
      authRecords cfgA rdata cs ok = authRecords cfgB rdata cs ok := by
  intro rdata
  induction rdata with
  | nil => intro cs ok; rfl
  | cons tr rest ih =>
    intro cs ok
    simp only [authRecords]
    rw [hD, hP, authChains_congr cfgA cfgB hAS, ih]

lemma AuthenticateAll_diagMode (cfg : Config) :
    AuthenticateAll { cfg with DiagMode := true }
      = (AuthenticateAll cfg).map (fun c => { c with DiagMode := true }) := by
  rcases htl : cfg.TLSA with _ | t
  · simp [AuthenticateAll, htl]
  · simp only [AuthenticateAll, htl, Option.map]
    rw [authRecords_congr { cfg with DiagMode := true, Okdane := false, TLSA := some t }
      { cfg with Okdane := false, TLSA := some t } (fun ch tr => rfl) rfl rfl]

lemma AuthenticateAll_preserves (cfg cfg' : Config) (h : AuthenticateAll cfg = some cfg') :
    cfg'.Okpkix = cfg.Okpkix ∧ cfg'.VerifiedChains = cfg.VerifiedChains ∧
    cfg'.DiagError = cfg.DiagError ∧ cfg'.DiagMode = cfg.DiagMode := by
  rcases htl : cfg.TLSA with _ | t
  · simp [AuthenticateAll, htl] at h
  · simp only [AuthenticateAll, htl] at h
    have := Option.some.inj h
    subst this
    exact ⟨rfl, rfl, rfl, rfl⟩

lemma AuthenticateAll_isSome (cfg : Config) (t : TLSAinfo) (htl : cfg.TLSA = some t) :
    ∃ c', AuthenticateAll cfg = some c' := by
  simp [AuthenticateAll, htl]

/-- C7: the TLS verifier callback invariant. For a callback entered
with `Okpkix` still false (a fresh per-attempt Config), and with the
external x509 verifier guaranteed to return non-empty chain lists on
success: (i) with `DiagMode` off, a success (nil) return leaves at
least one of `Okdane`/`Okpkix` true and a non-empty `VerifiedChains`;
(ii) whenever the non-diag run fails and the same inputs under
`DiagMode` return success, the parked `DiagError` is non-null. -/
theorem c7_verifyServer_invariant
    (pkixVerify daneVerify : List Certificate → Except String (List Chain))
    (rawParsed : List (Except String Certificate)) (serverName : String)
    (cfg c1 : Config) (e : String)
    (hpkne : ∀ cs r, pkixVerify cs = Except.ok r → r ≠ [])
    (hdvne : ∀ cs r, daneVerify cs = Except.ok r → r ≠ [])
    (hdm : cfg.DiagMode = false) (hpk0 : cfg.Okpkix = false) :
    (verifyServer pkixVerify daneVerify rawParsed serverName cfg = some (c1, none) →
      (c1.Okdane = true ∨ c1.Okpkix = true) ∧ c1.VerifiedChains ≠ []) ∧
    (verifyServer pkixVerify daneVerify rawParsed serverName cfg = some (c1, some e) →
      ∀ c2, verifyServer pkixVerify daneVerify rawParsed serverName
          { cfg with DiagMode := true } = some (c2, none) →
        c2.DiagError.isSome = true) := by
  obtain ⟨dm, de, sv, den, sam, app, dane, pkix, okd, okp, tlsa, pc, vc, dc, pkc⟩ := cfg
  simp only at hdm hpk0
  subst hdm
  subst hpk0
  rcases hparse : parseCerts rawParsed with ep | certs
  · constructor
    · intro h
      simp [verifyServer, hparse] at h
    · intro _ c2 h2
      simp [verifyServer, hparse] at h2
  · rcases certs with _ | ⟨c0, crest⟩
    · constructor
      · intro h
        simp [verifyServer, hparse] at h
      · intro _ c2 h2
        simp [verifyServer, hparse] at h2
    · cases dane with
      | false =>
        rcases hpkx : pkixVerify (c0 :: crest) with epk | chains
        · constructor
          · intro h
            simp [verifyServer, hparse, hpkx] at h
          · intro _ c2 h2
            simp [verifyServer, hparse, hpkx] at h2
            obtain rfl := h2
            rfl
        · by_cases hhost : c0.HostnameOK serverName = true
          · constructor
            · intro h
              simp [verifyServer, hparse, hpkx, hhost] at h
              obtain rfl := h
              exact ⟨Or.inr rfl, fun hnil => hpkne _ _ hpkx (by simpa using hnil)⟩
            · intro h _ _
              simp [verifyServer, hparse, hpkx, hhost] at h
          · constructor
            · intro h
              simp [verifyServer, hparse, hpkx, hhost] at h
            · intro _ c2 h2
              simp [verifyServer, hparse, hpkx, hhost] at h2
              obtain rfl := h2
              rfl
      | true =>
        rcases tlsa with _ | t
        · -- TLSA absent: not armed
          rcases hpkx : pkixVerify (c0 :: crest) with epk | chains
          · constructor
            · intro h
              simp [verifyServer, hparse, hpkx] at h
            · intro _ c2 h2
              simp [verifyServer, hparse, hpkx] at h2
              obtain rfl := h2
              rfl
          · by_cases hhost : c0.HostnameOK serverName = true
            · constructor
              · intro h
                simp [verifyServer, hparse, hpkx, hhost] at h
                obtain rfl := h
                exact ⟨Or.inr rfl, fun hnil => hpkne _ _ hpkx (by simpa using hnil)⟩
              · intro h _ _
                simp [verifyServer, hparse, hpkx, hhost] at h
            · constructor
              · intro h
                simp [verifyServer, hparse, hpkx, hhost] at h
              · intro _ c2 h2
                simp [verifyServer, hparse, hpkx, hhost] at h2
                obtain rfl := h2
                rfl
        · -- DANE armed
          rcases hpkx : pkixVerify (c0 :: crest) with epk | chains
          · -- PKIX build failed: DANE self-anchored build
            rcases hdvx : daneVerify (c0 :: crest) with ed | dchains
            · constructor
              · intro h
                simp [verifyServer, hparse, hpkx, hdvx] at h
              · intro _ c2 h2
                simp [verifyServer, hparse, hpkx, hdvx] at h2
                obtain rfl := h2
                rfl
            · obtain ⟨cfg2, haa⟩ := AuthenticateAll_isSome
                { DiagMode := false, DiagError := de, Server := sv, DaneEEname := den,
                  SMTPAnyMode := sam, Appname := app, DANE := true, PKIX := pkix,
                  Okdane := okd, Okpkix := false, TLSA := some t, PeerChain := c0 :: crest,
                  VerifiedChains := dchains, DANEChains := dc, PKIXChains := pkc } t rfl
              have hpres := AuthenticateAll_preserves _ _ haa
              have haaD := AuthenticateAll_diagMode
                { DiagMode := false, DiagError := de, Server := sv, DaneEEname := den,
                  SMTPAnyMode := sam, Appname := app, DANE := true, PKIX := pkix,
                  Okdane := okd, Okpkix := false, TLSA := some t, PeerChain := c0 :: crest,
                  VerifiedChains := dchains, DANEChains := dc, PKIXChains := pkc }
              rw [haa] at haaD
              simp only [Option.map] at haaD
              cases hod : cfg2.Okdane with
              | true =>
                constructor
                · intro h
                  simp [verifyServer, hparse, hpkx, hdvx, haa, hod] at h
                  obtain rfl := h
                  refine ⟨Or.inl hod, ?_⟩
                  rw [hpres.2.1]
                  exact fun hnil => hdvne _ _ hdvx (by simpa using hnil)
                · intro h _ _
                  simp [verifyServer, hparse, hpkx, hdvx, haa, hod] at h
              | false =>
                constructor
                · intro h
                  simp [verifyServer, hparse, hpkx, hdvx, haa, hod, hpres.2.2.2] at h
                · intro _ c2 h2
                  simp [verifyServer, hparse, hpkx, hdvx, haaD, hod] at h2
                  obtain rfl := h2
                  rfl
          · -- PKIX build succeeded
            obtain ⟨cfg2, haa⟩ := AuthenticateAll_isSome
              { DiagMode := false, DiagError := de, Server := sv, DaneEEname := den,
                SMTPAnyMode := sam, Appname := app, DANE := true, PKIX := pkix,
                Okdane := okd, Okpkix := true, TLSA := some t, PeerChain := c0 :: crest,
                VerifiedChains := chains, DANEChains := dc, PKIXChains := pkc } t rfl
            have hpres := AuthenticateAll_preserves _ _ haa
            have haaD := AuthenticateAll_diagMode
              { DiagMode := false, DiagError := de, Server := sv, DaneEEname := den,
                SMTPAnyMode := sam, Appname := app, DANE := true, PKIX := pkix,
                Okdane := okd, Okpkix := true, TLSA := some t, PeerChain := c0 :: crest,
                VerifiedChains := chains, DANEChains := dc, PKIXChains := pkc }
            rw [haa] at haaD
            simp only [Option.map] at haaD
            cases hod : cfg2.Okdane with
            | true =>
              constructor
              · intro h
                simp [verifyServer, hparse, hpkx, haa, hod] at h
                obtain rfl := h
                refine ⟨Or.inl hod, ?_⟩
                rw [hpres.2.1]
                exact fun hnil => hpkne _ _ hpkx (by simpa using hnil)
              · intro h _ _
                simp [verifyServer, hparse, hpkx, haa, hod] at h
            | false =>
              constructor
              · intro h
                simp [verifyServer, hparse, hpkx, haa, hod, hpres.2.2.2] at h
              · intro _ c2 h2
                simp [verifyServer, hparse, hpkx, haaD, hod] at h2
                obtain rfl := h2
                rfl

/-- The Config the verifier callback produces in the C7 witness
scenario (PKIX-only request, successful chain build and name
check). -/
def c7wres : Config :=
  { DANE := false, Okpkix := true, PeerChain := [certW], VerifiedChains := [chainW] }

/-- Witness for C7 at a concrete callback run: a successful PKIX-only
verification returns nil with `Okpkix` set and a non-empty verified
chain list. -/
theorem c7_witness :
    verifyServer (fun _ => Except.ok [chainW]) (fun _ => Except.ok [chainW])
        [Except.ok certW] "h" { DANE := false } = some (c7wres, none) ∧
    (c7wres.Okdane = true ∨ c7wres.Okpkix = true) ∧ c7wres.VerifiedChains ≠ [] := by
  have h := c7_verifyServer_invariant (fun _ => Except.ok [chainW])
    (fun _ => Except.ok [chainW]) [Except.ok certW] "h" { DANE := false } c7wres "x"
    (by intro cs r hr; injection hr with h2; rw [← h2]; simp)
    (by intro cs r hr; injection hr with h2; rw [← h2]; simp)
    rfl rfl
  exact ⟨rfl, h.1 rfl⟩

/-- Witness for C8 (amended): a concrete authenticated NXDOMAIN
response produces the NoSuchName error. -/
theorem c8_witness :
    GetTLSA true "example.com" 443
        (some { Truncated := false, Rcode := 3, AuthenticatedData := true, Answer := [] },
         none) (none, none)
      = some (Except.error "_443._tcp.example.com: Non-existent domain name") := by
  have h := c8_GetTLSA_ad_before_nxdomain true "example.com" 443
    (some { Truncated := false, Rcode := 3, AuthenticatedData := true, Answer := [] },
     none) (none, none)
    { Truncated := false, Rcode := 3, AuthenticatedData := true, Answer := [] } rfl
  exact h.2.2 rfl rfl

end Dane
